import Mathlib

/-!
A verification development for the Deals_Agent event-to-deal-suggestion
pipeline. Each definition is a shallow embedding of one function of the
repository (module and function named in its doc comment); Python floats
are modelled as rationals (ℚ) except for the trigonometric Haversine
distance, which is modelled over ℝ. Theorems settle the frozen claims
about the pipeline.
-/

namespace DealsAgent

/-- Model of `InventoryItem` (api/models/deals.py): the inventory row read by the
suggestion generator. `price` is modelled as ℚ. -/
structure InventoryItem where
  sku : String
  product_name : String
  description : Option String
  price : ℚ
  quantity_on_hand : Int
  category : String
  supplier : Option String
deriving DecidableEq, Repr

/-- The parsed JSON object returned by the AI model in
`generate_deal_from_ai` (api/services/ai_service.py). Each field is
`Option` because the model may omit it (`dict.get`); numeric fields are
modelled as ℚ. -/
structure AIResponse where
  suggested_product_sku : Option String
  deal_details_suggestion_text : Option String
  suggested_discount_type : Option String
  suggested_discount_value : Option ℚ
  original_price : Option ℚ
  suggested_price : Option ℚ
deriving DecidableEq, Repr

/-- The dictionary returned by `generate_deal_from_ai` after validation:
`original_price` and `suggested_price` have been overwritten, and
`suggested_discount_value` coerced to a number (default 0). -/
structure DealDict where
  suggested_product_sku : String
  deal_details_suggestion_text : Option String
  suggested_discount_type : Option String
  suggested_discount_value : ℚ
  original_price : ℚ
  suggested_price : ℚ
deriving DecidableEq, Repr

/-- Python's `round(x, 2)` on the computed price, modelled as rounding
`x * 100` to the nearest integer (halves up) and dividing back. -/
def round2 (x : ℚ) : ℚ := (⌊x * 100 + 1 / 2⌋ : ℚ) / 100

/-- The lookup in `inventory_map = {item.sku: item for item in inventory_list}`
(ai_service.py line 86): a Python dict comprehension keeps the LAST item
with a given key, hence the search over the reversed list. -/
def lookupSku (inventory_list : List InventoryItem) (sku : String) :
    Option InventoryItem :=
  inventory_list.reverse.find? (fun item => item.sku == sku)

/-- Model of `generate_deal_from_ai` (api/services/ai_service.py lines 84-113),
from the point where the model's JSON has been parsed: validates the SKU
(`if not selected_sku or selected_sku not in inventory_map: raise`, so an
absent, empty or unknown SKU is a `ValidationError`), overwrites
`original_price` with the inventory price, recomputes the suggested price
from the discount type and value (default 0) and rounds it to 2 decimal
places; the model's own `suggested_price` is never used. -/
def generate_deal_from_ai (resp : AIResponse)
    (inventory_list : List InventoryItem) : Except String DealDict :=
  match resp.suggested_product_sku with
  | none => .error "AI suggested SKU not in inventory."
  | some selected_sku =>
    if selected_sku = "" then .error "AI suggested SKU not in inventory."
    else
      match lookupSku inventory_list selected_sku with
      | none => .error "AI suggested SKU not in inventory."
      | some actual_item =>
        let original_price := actual_item.price
        let discount_value := resp.suggested_discount_value.getD 0
        let calculated_suggested_price :=
          if resp.suggested_discount_type = some "fixed_amount" then
            original_price - discount_value
          else if resp.suggested_discount_type = some "percentage" then
            original_price * (1 - discount_value / 100)
          else original_price
        .ok { suggested_product_sku := selected_sku
              deal_details_suggestion_text := resp.deal_details_suggestion_text
              suggested_discount_type := resp.suggested_discount_type
              suggested_discount_value := discount_value
              original_price := original_price
              suggested_price := round2 calculated_suggested_price }

/-- The fixed comparison tolerance `Decimal('0.000001')` of
`find_matching_events` (event_sourcing_agent/get_events_from_upswap.py). -/
def tolerance : ℚ := 1 / 1000000

/-- The coordinate comparison of `find_matching_events`
(get_events_from_upswap.py lines 36-39): two coordinate pairs match when
the absolute difference is strictly below `tolerance` on both axes. -/
def coords_match (event_lat event_lon vendor_lat vendor_lon : ℚ) : Bool :=
  decide (|event_lat - vendor_lat| < tolerance) &&
  decide (|event_lon - vendor_lon| < tolerance)

/-- The activity payload passed to `store_event`
(event_sourcing_agent/event_sourcing_agent.py). The coordinate fields
hold the result of Python's `float(...)` parse: `none` models a missing
key or a non-numeric string (`ValueError`/`KeyError`). -/
structure ActivityDetails where
  activity_title : String
  location : String
  start_date : String
  end_date : String
  activity_category : Option String
  latitude : Option ℚ
  longitude : Option ℚ
deriving DecidableEq, Repr

/-- A row of the `events` table as written by `store_event`. The
generated `location_uuid`, the serialized `event_details_text` and the
timestamp columns are omitted: they are fresh per call and no claim
depends on them. -/
structure EventRow where
  vendor_id : String
  activity_id : String
  event_trigger_point : String
  event_location_latitude : ℚ
  event_location_longitude : ℚ
deriving DecidableEq, Repr

/-- The outcome of `store_event`: the code returns `True` both after the
dedup skip (log "already exists. Skipping.") and after a successful
insert, and `False` on failure; the three code paths are kept distinct
here, with `created`/`skipped` both mapping to Python `True`. -/
inductive StoreResult where
  | created
  | skipped
  | failed
deriving DecidableEq, Repr

/-- The dedup lookup `SELECT COUNT(*) FROM events WHERE activity_id = %s`
of `store_event`: how many stored rows carry the given activity id. -/
def countId (db : List EventRow) (activity_id : String) : Nat :=
  (db.filter (fun e => e.activity_id == activity_id)).length

/-- The `event_data` dictionary assembled by `store_event` just before
the INSERT: fixed `event_trigger_point = "local_event"` and the parsed
coordinates. -/
def event_data (vendor_id activity_id : String)
    (latitude longitude : ℚ) : EventRow :=
  { vendor_id := vendor_id
    activity_id := activity_id
    event_trigger_point := "local_event"
    event_location_latitude := latitude
    event_location_longitude := longitude }

/-- Model of `store_event` (event_sourcing_agent.py lines 103-184): skip when a
row with this `activity_id` already exists; otherwise parse the
coordinates (failure returns `failed` with nothing written, the code's
early `return False`) and append the new row. -/
def store_event (db : List EventRow) (vendor_id activity_id : String)
    (activity_details : ActivityDetails) : StoreResult × List EventRow :=
  if countId db activity_id > 0 then
    (.skipped, db)
  else
    match activity_details.latitude, activity_details.longitude with
    | some latitude, some longitude =>
      (.created, db ++ [event_data vendor_id activity_id latitude longitude])
    | _, _ => (.failed, db)

/-- A row of the `events` table as the Event Processor reads it
(event_processing_agent.py): only the primary key and the
`processed_for_suggestion` flag drive the control flow modelled here. -/
structure ProcEvent where
  id : Nat
  processed_for_suggestion : Bool
deriving DecidableEq, Repr

/-- The fate of one event inside the processing loop: `raised` models an
exception anywhere in the per-event `try` block (inventory fetch,
payload building, the HTTP call itself raising); `apiFailure` models
`call_deal_suggestion_api` returning `None` (non-200 status or a caught
network error) or a falsy JSON body; `success` a truthy non-error
response. -/
inductive EvOutcome where
  | raised
  | apiFailure
  | success
deriving DecidableEq, Repr

/-- The statement `UPDATE events SET processed_for_suggestion = TRUE WHERE id = $1`
(event_processing_agent.py UPDATE_PROCESSED). -/
def mark_processed (db : List ProcEvent) (eid : Nat) : List ProcEvent :=
  db.map (fun e =>
    if e.id == eid then { e with processed_for_suggestion := true } else e)

/-- Model of `process_events` (event_processing_agent.py lines 93-161): select the
rows with `processed_for_suggestion = FALSE`, then loop over them; the
per-event `try/except` makes each iteration independent, and the row is
marked processed exactly when the suggestion call's outcome is
`success`; on `raised` or `apiFailure` the loop logs and continues with
the store untouched. -/
def process_events (outcome : Nat → EvOutcome) (db : List ProcEvent) :
    List ProcEvent :=
  let events := db.filter (fun e => e.processed_for_suggestion == false)
  events.foldl (fun acc e =>
    match outcome e.id with
    | .success => mark_processed acc e.id
    | _ => acc) db

/-- A row of the `deal_suggestions` table as the Deal Publisher reads it
(deal_creator.py): only the id and the two control columns drive the
publishing state machine; the payload columns do not. -/
structure Suggestion where
  id : Nat
  vendor_feedback : String
  status : String
deriving DecidableEq, Repr

/-- Model of `get_accepted_suggestions` (deal_creator.py lines 27-40):
`SELECT * FROM deal_suggestions WHERE vendor_feedback = 'accepted' AND
status != 'posted'`. -/
def get_accepted_suggestions (db : List Suggestion) : List Suggestion :=
  db.filter (fun s => s.vendor_feedback == "accepted" && s.status != "posted")

/-- Model of `update_suggestion_status` (deal_creator.py lines 42-58):
`UPDATE deal_suggestions SET status = 'posted' WHERE id = :id`. -/
def update_suggestion_status (db : List Suggestion) (sid : Nat) :
    List Suggestion :=
  db.map (fun s => if s.id == sid then { s with status := "posted" } else s)

/-- Model of `create_deal` (deal_creator.py lines 60-103): submit the payload;
`http` gives the HTTP status for each suggestion id, `none` modelling a
network failure or exception (caught, returning `False`). The code
checks `response.status_code in [200, 201]`; on success it marks the
suggestion posted and returns `True`, otherwise it logs and returns
`False` with the store untouched. -/
def create_deal (http : Nat → Option Nat) (db : List Suggestion)
    (s : Suggestion) : Bool × List Suggestion :=
  match http s.id with
  | none => (false, db)
  | some code =>
    if [200, 201].contains code then (true, update_suggestion_status db s.id)
    else (false, db)

/-- Model of `process_suggestions` (deal_creator.py lines 105-115): one publisher
cycle over the accepted, not-yet-posted suggestions. -/
def process_suggestions (http : Nat → Option Nat) (db : List Suggestion) :
    List Suggestion :=
  (get_accepted_suggestions db).foldl
    (fun acc s => (create_deal http acc s).2) db

/-- Whether an HTTP result counts as success for `create_deal`:
a response with status 200 or 201; `none` (network failure) never. -/
def httpSuccess : Option Nat → Bool
  | some code => [200, 201].contains code
  | none => false

/-- Python's `math.radians`: degrees to radians. -/
noncomputable def radians (x : ℝ) : ℝ := x * (Real.pi / 180)

/-- The intermediate `a` of `calculate_distance`
(event_sourcing_agent.py line 76):
`sin²(dlat/2) + cos(lat1)·cos(lat2)·sin²(dlon/2)` in radians. -/
noncomputable def hav_a (lat1 lon1 lat2 lon2 : ℝ) : ℝ :=
  Real.sin ((radians lat2 - radians lat1) / 2) ^ 2 +
    Real.cos (radians lat1) * Real.cos (radians lat2) *
      Real.sin ((radians lon2 - radians lon1) / 2) ^ 2

/-- Model of `calculate_distance` (event_sourcing_agent.py lines 68-78): the
Haversine great-circle distance with Earth radius R = 6371 km,
`c = 2·asin(√a)` and result `R·c`. Python floats are modelled as ℝ. -/
noncomputable def calculate_distance (lat1 lon1 lat2 lon2 : ℝ) : ℝ :=
  6371 * (2 * Real.arcsin (Real.sqrt (hav_a lat1 lon1 lat2 lon2)))

/-- What `float(activity['latitude'])` does on one coordinate field:
succeed with a float; raise `ValueError` (a non-numeric string) or
`KeyError` (a missing key) — the two exception types the loop's
`except (ValueError, KeyError)` clause catches; or raise `TypeError`
(e.g. a JSON null, a list), which that clause does NOT catch. -/
inductive FloatParse where
  | ok (x : ℝ)
  | valueError
  | typeError

/-- An activity dictionary as consumed by `find_closest_activity`: each
coordinate field carries the outcome of `float(...)` on its raw value. -/
structure Activity where
  activity_id : String
  latitude : FloatParse
  longitude : FloatParse

/-- The coordinate parse at the top of `find_closest_activity`'s loop
body, latitude first (so a `ValueError`/`KeyError` on the latitude skips
the candidate before the longitude is ever evaluated): `.ok (some _)`
is a parsed pair, `.ok none` the caught-and-skipped `except` branch, and
`.error ()` an uncaught `TypeError` that propagates out of the loop. -/
def parseCoords (a : Activity) : Except Unit (Option (ℝ × ℝ)) :=
  match a.latitude with
  | .typeError => .error ()
  | .valueError => .ok none
  | .ok lat =>
    match a.longitude with
    | .typeError => .error ()
    | .valueError => .ok none
    | .ok lon => .ok (some (lat, lon))

/-- The successfully parsed coordinate pair of a candidate, `none`
otherwise: the pure view of `parseCoords` used to state which candidates
take part in the minimum. -/
def parsedCoords (a : Activity) : Option (ℝ × ℝ) :=
  match parseCoords a with
  | .ok (some p) => some p
  | _ => none

/-- The vendor-to-activity distance, when the activity's coordinates
parse. -/
noncomputable def actDist (vlat vlon : ℝ) (a : Activity) : Option ℝ :=
  (parsedCoords a).map (fun p => calculate_distance vlat vlon p.1 p.2)

/-- The state update of one non-aborting iteration of
`find_closest_activity`'s loop. The state is the closest activity so far
with its distance; `none` models the initial
`closest_activity = None, min_distance = inf` (every real distance beats
infinity). A candidate replaces the state only on a strictly smaller
distance (`if distance < min_distance`), and a skipped candidate leaves
the state untouched. -/
noncomputable def closest_step_ok (vlat vlon : ℝ)
    (st : Option (Activity × ℝ)) (a : Activity) : Option (Activity × ℝ) :=
  match parsedCoords a with
  | none => st
  | some (alat, alon) =>
    let distance := calculate_distance vlat vlon alat alon
    match st with
    | none => some (a, distance)
    | some (c, m) => if distance < m then some (a, distance) else some (c, m)

/-- One full iteration of the loop body: an uncaught `TypeError` from
the coordinate parse propagates (`.error`); otherwise the pure state
update runs (the distance computation and comparison cannot raise). -/
noncomputable def closest_step (vlat vlon : ℝ)
    (st : Option (Activity × ℝ)) (a : Activity) :
    Except Unit (Option (Activity × ℝ)) :=
  match parseCoords a with
  | .error e => .error e
  | .ok _ => .ok (closest_step_ok vlat vlon st a)

/-- The `for activity in activities` loop of `find_closest_activity`:
run the body on each candidate in order; an uncaught exception aborts
the remaining iterations and propagates. -/
noncomputable def closest_loop (vlat vlon : ℝ) :
    List Activity → Option (Activity × ℝ) →
      Except Unit (Option (Activity × ℝ))
  | [], st => .ok st
  | a :: rest, st =>
    match closest_step vlat vlon st a with
    | .error e => .error e
    | .ok st2 => closest_loop vlat vlon rest st2

/-- Model of `find_closest_activity` (event_sourcing_agent.py lines
80-101): run the loop over the candidate list and return the closest
activity, `none` when the list is empty or every candidate was skipped,
or propagate an uncaught `TypeError` (`.error`). -/
noncomputable def find_closest_activity (vlat vlon : ℝ)
    (activities : List Activity) : Except Unit (Option Activity) :=
  (closest_loop vlat vlon activities none).map (fun st => st.map Prod.fst)

end DealsAgent

namespace DealsAgent

/-- Concrete inputs for the suggestion-generator claims: the spec's
example inventory, one item of SKU "A" and price 100. -/
def itemA : InventoryItem :=
  { sku := "A", product_name := "Product A", description := none
    price := 100, quantity_on_hand := 5, category := "general"
    supplier := none }

def invA : List InventoryItem := [itemA]

/-- The spec's example model response: SKU "A", a percentage discount of
20, and a bogus `suggested_price` of 999. -/
def respA : AIResponse :=
  { suggested_product_sku := some "A"
    deal_details_suggestion_text := some "Deal on A"
    suggested_discount_type := some "percentage"
    suggested_discount_value := some 20
    original_price := some 50
    suggested_price := some 999 }

/-- A stored event row with activity id "X", for the store_event claims. -/
def rowX : EventRow :=
  { vendor_id := "v0", activity_id := "X"
    event_trigger_point := "local_event"
    event_location_latitude := 1, event_location_longitude := 2 }

/-- An activity payload whose coordinates parse. -/
def adGood : ActivityDetails :=
  { activity_title := "Marathon", location := "Park"
    start_date := "2025-01-01", end_date := "2025-01-02"
    activity_category := some "sports"
    latitude := some (2757 / 100), longitude := some (7765 / 100) }

/-- An activity payload whose latitude does not parse as a float. -/
def adBad : ActivityDetails :=
  { activity_title := "Fair", location := "Square"
    start_date := "2025-02-01", end_date := "2025-02-02"
    activity_category := none
    latitude := none, longitude := some 3 }

/-- Three events for the processor claim: two unprocessed, one already
processed. -/
def dbEvents : List ProcEvent :=
  [{ id := 1, processed_for_suggestion := false },
   { id := 2, processed_for_suggestion := false },
   { id := 3, processed_for_suggestion := true }]

/-- An outcome assignment where event 1 fails (its lookup raises) and
every other event succeeds. -/
def outcomeFail1 : Nat → EvOutcome :=
  fun n => if n = 1 then .raised else .success

/-- An accepted, not yet posted suggestion. -/
def suggAccepted : Suggestion :=
  { id := 0, vendor_feedback := "accepted", status := "generated" }

/-- A suggestion still awaiting vendor feedback. -/
def suggPending : Suggestion :=
  { id := 1, vendor_feedback := "pending", status := "generated" }

/-- A publisher store with one accepted and one pending suggestion. -/
def dbSuggestions : List Suggestion := [suggAccepted, suggPending]

/-- A candidate whose latitude is a JSON null: `float(None)` raises
`TypeError`, which the loop's `except (ValueError, KeyError)` does not
catch. -/
noncomputable def actNull : Activity :=
  { activity_id := "A1", latitude := FloatParse.typeError
    longitude := FloatParse.ok 0 }

end DealsAgent

namespace DealsAgent

/-- C1 (amended): whenever the model response names a non-empty SKU that
the inventory lookup resolves to `item`, generation succeeds, the output's
`original_price` is `item.price` (whatever the model claimed), and
`suggested_price` is recomputed from the discount type and value and
rounded to 2 decimal places, regardless of the model's own
`suggested_price`. -/
theorem generate_deal_price_integrity
    (inv : List InventoryItem) (resp : AIResponse) (sku : String)
    (item : InventoryItem)
    (hsku : resp.suggested_product_sku = some sku)
    (hne : sku ≠ "")
    (hfind : lookupSku inv sku = some item) :
    ∃ out, generate_deal_from_ai resp inv = .ok out ∧
      out.original_price = item.price ∧
      (resp.suggested_discount_type = some "fixed_amount" →
        out.suggested_price =
          round2 (item.price - resp.suggested_discount_value.getD 0)) ∧
      (resp.suggested_discount_type = some "percentage" →
        out.suggested_price =
          round2 (item.price *
            (1 - resp.suggested_discount_value.getD 0 / 100))) := by
  unfold generate_deal_from_ai
  rw [hsku]
  split
  · rename_i heq
    exact absurd heq (by simp)
  · rename_i selected heq
    injection heq with heq2
    subst heq2
    rw [if_neg hne, hfind]
    split
    · rename_i heq3
      exact absurd heq3 (by simp)
    · rename_i item2 heq3
      injection heq3 with heq4
      subst heq4
      refine ⟨_, rfl, rfl, ?_, ?_⟩
      · intro hdt
        simp [hdt]
      · intro hdt
        simp [hdt]

/-- C1 witness: the spec's example. Inventory `[{sku:"A", price:100}]`,
model response with percentage discount 20 and `suggested_price` 999:
the output is `original_price = 100`, `suggested_price = 80`. -/
theorem generate_deal_price_integrity_witness :
    ((respA.suggested_product_sku = some "A") ∧ ("A" : String) ≠ "" ∧
      lookupSku invA "A" = some itemA ∧
      round2 (itemA.price *
        (1 - respA.suggested_discount_value.getD 0 / 100)) = 80 ∧
      itemA.price = 100) ∧
    (∃ out, generate_deal_from_ai respA invA = .ok out ∧
      out.original_price = itemA.price ∧
      (respA.suggested_discount_type = some "fixed_amount" →
        out.suggested_price =
          round2 (itemA.price - respA.suggested_discount_value.getD 0)) ∧
      (respA.suggested_discount_type = some "percentage" →
        out.suggested_price =
          round2 (itemA.price *
            (1 - respA.suggested_discount_value.getD 0 / 100)))) :=
  ⟨⟨rfl, by decide, by decide,
    by norm_num [round2, itemA, respA], by norm_num [itemA]⟩,
   generate_deal_price_integrity invA respA "A" itemA rfl (by decide)
     (by decide)⟩

/-- C1 counterexample to the claim as stated: the claim quantifies over
every response whose SKU is present in the inventory, but Python's
`if not selected_sku` also rejects the empty-string SKU, so for an
inventory containing an item with `sku = ""` and a response selecting
`""`, generation raises instead of producing the claimed output. -/
theorem generate_deal_empty_sku_cex :
    (lookupSku
        [{ sku := "", product_name := "P", description := none
           price := 100, quantity_on_hand := 1, category := "c"
           supplier := none }] "").isSome = true ∧
    generate_deal_from_ai
      { suggested_product_sku := some ""
        deal_details_suggestion_text := none
        suggested_discount_type := some "percentage"
        suggested_discount_value := some 20
        original_price := some 100
        suggested_price := some 999 }
      [{ sku := "", product_name := "P", description := none
         price := 100, quantity_on_hand := 1, category := "c"
         supplier := none }]
      = .error "AI suggested SKU not in inventory." := by
  constructor
  · decide
  · rfl

/-- C2: when the response's SKU is absent, or no inventory item carries
it, generation fails with a validation error (and hence produces no
DealSuggestion record). -/
theorem generate_deal_sku_validation
    (resp : AIResponse) (inv : List InventoryItem)
    (h : ∀ sku, resp.suggested_product_sku = some sku →
      lookupSku inv sku = none) :
    ∃ e, generate_deal_from_ai resp inv = .error e := by
  unfold generate_deal_from_ai
  split
  · exact ⟨_, rfl⟩
  · rename_i sku2 heq
    by_cases hempty : sku2 = ""
    · rw [if_pos hempty]
      exact ⟨_, rfl⟩
    · rw [if_neg hempty, h sku2 heq]
      exact ⟨_, rfl⟩

/-- C2 witness: a response selecting SKU "Z" against the inventory
`[itemA]` (which has no "Z") fails with a validation error. -/
theorem generate_deal_sku_validation_witness :
    (∀ sku,
      (AIResponse.mk (some "Z") none (some "percentage") (some 20)
        (some 100) (some 80)).suggested_product_sku = some sku →
      lookupSku invA sku = none) ∧
    (∃ e, generate_deal_from_ai
      (AIResponse.mk (some "Z") none (some "percentage") (some 20)
        (some 100) (some 80)) invA = .error e) := by
  have h : ∀ sku,
      (AIResponse.mk (some "Z") none (some "percentage") (some 20)
        (some 100) (some 80)).suggested_product_sku = some sku →
      lookupSku invA sku = none := by
    intro sku hs
    injection hs with h2
    subst h2
    decide
  exact ⟨h, generate_deal_sku_validation _ invA h⟩

/-- C10: a valid (present, non-empty) SKU with an unrecognized discount
type, or with an absent discount value, does not make generation fail:
the output's `suggested_price` is the inventory price rounded to 2
decimal places. -/
theorem generate_deal_unknown_discount
    (inv : List InventoryItem) (resp : AIResponse) (sku : String)
    (item : InventoryItem)
    (hsku : resp.suggested_product_sku = some sku)
    (hne : sku ≠ "")
    (hfind : lookupSku inv sku = some item)
    (hdt : (resp.suggested_discount_type ≠ some "fixed_amount" ∧
            resp.suggested_discount_type ≠ some "percentage") ∨
           resp.suggested_discount_value = none) :
    ∃ out, generate_deal_from_ai resp inv = .ok out ∧
      out.original_price = item.price ∧
      out.suggested_price = round2 item.price := by
  unfold generate_deal_from_ai
  rw [hsku]
  split
  · rename_i heq
    exact absurd heq (by simp)
  · rename_i selected heq
    injection heq with heq2
    subst heq2
    rw [if_neg hne, hfind]
    split
    · rename_i heq3
      exact absurd heq3 (by simp)
    · rename_i item2 heq3
      injection heq3 with heq4
      subst heq4
      refine ⟨_, rfl, rfl, ?_⟩
      rcases hdt with ⟨h1, h2⟩ | hdv
      · simp [h1, h2]
      · simp [hdv]

/-- C10 witness: SKU "A" with the unrecognized discount type "bogo" and
value 5 yields a suggestion priced at the inventory price. -/
theorem generate_deal_unknown_discount_witness :
    (lookupSku invA "A" = some itemA) ∧
    (∃ out, generate_deal_from_ai
        (AIResponse.mk (some "A") none (some "bogo") (some 5)
          (some 100) (some 95)) invA = .ok out ∧
      out.original_price = itemA.price ∧
      out.suggested_price = round2 itemA.price) :=
  ⟨by decide,
   generate_deal_unknown_discount invA
     (AIResponse.mk (some "A") none (some "bogo") (some 5)
       (some 100) (some 95)) "A" itemA rfl (by decide) (by decide)
     (Or.inl (by decide))⟩

/-- C7: exact-match mode reports a match exactly when the absolute
latitude difference and the absolute longitude difference are both
strictly below the fixed tolerance of 1e-6 degrees; in particular a pair
differing by more than the tolerance on either axis does not match. -/
theorem coords_match_iff (elat elon vlat vlon : ℚ) :
    coords_match elat elon vlat vlon = true ↔
      (|elat - vlat| < tolerance ∧ |elon - vlon| < tolerance) := by
  simp [coords_match]

/-- How the dedup count changes when one row is appended. -/
theorem countId_append (db : List EventRow) (row : EventRow) (id2 : String) :
    countId (db ++ [row]) id2 =
      countId db id2 + (if row.activity_id == id2 then 1 else 0) := by
  simp only [countId, List.filter_append]
  rw [List.length_append]
  congr 1
  by_cases h : row.activity_id == id2
  · simp [h]
  · simp [h]

/-- C5: `store_event` is idempotent in `activity_id`. From a store
satisfying the at-most-one invariant for `aid`, a call with parsable
coordinates followed by a second call with the same `aid` (any payload)
leaves exactly one row with that id, the second call reports `skipped`
(not an error) and inserts nothing, and any one call preserves the
at-most-one invariant for every activity id. -/
theorem store_event_idempotent
    (db : List EventRow) (vid aid : String) (ad : ActivityDetails)
    (vid2 : String) (ad2 : ActivityDetails) (lat lon : ℚ)
    (hinv : countId db aid ≤ 1)
    (hlat : ad.latitude = some lat) (hlon : ad.longitude = some lon) :
    countId (store_event db vid aid ad).2 aid = 1 ∧
    (store_event (store_event db vid aid ad).2 vid2 aid ad2).1 =
      .skipped ∧
    (store_event (store_event db vid aid ad).2 vid2 aid ad2).2 =
      (store_event db vid aid ad).2 ∧
    (∀ id2, countId db id2 ≤ 1 →
      countId (store_event db vid aid ad).2 id2 ≤ 1) := by
  by_cases h0 : countId db aid > 0
  · have e1 : store_event db vid aid ad = (.skipped, db) := by
      unfold store_event
      rw [if_pos h0]
    have hc : countId db aid = 1 := by omega
    have e2 : store_event db vid2 aid ad2 = (.skipped, db) := by
      unfold store_event
      rw [if_pos h0]
    rw [e1]
    exact ⟨hc, by rw [e2], by rw [e2], fun id2 h => h⟩
  · have h0z : countId db aid = 0 := by omega
    have e1 : store_event db vid aid ad =
        (.created, db ++ [event_data vid aid lat lon]) := by
      unfold store_event
      rw [if_neg h0, hlat, hlon]
    rw [e1]
    have hca : countId (db ++ [event_data vid aid lat lon]) aid = 1 := by
      rw [countId_append]
      simp [h0z, event_data]
    have e2 : store_event (db ++ [event_data vid aid lat lon]) vid2 aid ad2 =
        (.skipped, db ++ [event_data vid aid lat lon]) := by
      unfold store_event
      rw [if_pos (by omega)]
    refine ⟨hca, by rw [e2], by rw [e2], ?_⟩
    intro id2 h2
    rw [countId_append]
    by_cases hid : aid = id2
    · subst hid
      simp [h0z, event_data]
    · have hne2 : ((event_data vid aid lat lon).activity_id == id2) = false := by
        simp [event_data, hid]
      simpa [hne2] using h2

/-- C5 witness: an empty store, then two calls with activity id "X" and
parsable coordinates: one row results, and the second call skips. -/
theorem store_event_idempotent_witness :
    (countId [] "X" ≤ 1 ∧ adGood.latitude = some (2757 / 100) ∧
      adGood.longitude = some (7765 / 100)) ∧
    (countId (store_event [] "v1" "X" adGood).2 "X" = 1 ∧
    (store_event (store_event [] "v1" "X" adGood).2 "v1" "X" adGood).1 =
      .skipped ∧
    (store_event (store_event [] "v1" "X" adGood).2 "v1" "X" adGood).2 =
      (store_event [] "v1" "X" adGood).2 ∧
    (∀ id2, countId [] id2 ≤ 1 →
      countId (store_event [] "v1" "X" adGood).2 id2 ≤ 1)) :=
  ⟨⟨by decide, rfl, rfl⟩,
   store_event_idempotent [] "v1" "X" adGood "v1" adGood
     (2757 / 100) (7765 / 100) (by decide) rfl rfl⟩

/-- C9 counterexample: when a row with the activity id already exists,
`store_event` on a payload with unparsable coordinates returns `skipped`
(Python `True`), not `failed`: the dedup check fires before the
coordinate parse. -/
theorem store_event_bad_coords_cex :
    adBad.latitude = none ∧
    (store_event [rowX] "v" "X" adBad).1 = .skipped ∧
    (store_event [rowX] "v" "X" adBad).1 ≠ .failed := by
  refine ⟨rfl, ?_, ?_⟩ <;> decide

/-- C9 (amended): provided no event with this `activity_id` exists yet,
a payload whose latitude or longitude does not parse makes `store_event`
return `failed` and leaves the table unchanged (the insert is never
reached). -/
theorem store_event_bad_coords
    (db : List EventRow) (vid aid : String) (ad : ActivityDetails)
    (h0 : countId db aid = 0)
    (hbad : ad.latitude = none ∨ ad.longitude = none) :
    store_event db vid aid ad = (.failed, db) := by
  unfold store_event
  rw [if_neg (by omega)]
  cases hla : ad.latitude with
  | none =>
    cases hlo : ad.longitude with
    | none => rfl
    | some lon2 => rfl
  | some lat2 =>
    cases hlo : ad.longitude with
    | none => rfl
    | some lon2 =>
      rcases hbad with h | h
      · rw [hla] at h
        exact absurd h (by simp)
      · rw [hlo] at h
        exact absurd h (by simp)

/-- C9 witness: an empty store and the unparsable payload: the call
fails and writes nothing. -/
theorem store_event_bad_coords_witness :
    (countId [] "X" = 0 ∧ adBad.latitude = none) ∧
    store_event [] "v" "X" adBad = (.failed, []) :=
  ⟨⟨rfl, rfl⟩,
   store_event_bad_coords [] "v" "X" adBad rfl (Or.inl rfl)⟩

/-- A per-id conditional UPDATE folded over a worklist equals one map
over the store: each row is updated exactly when some worklist entry
with its key satisfies the trigger. Shared by the processor and
publisher cycle characterizations. -/
theorem foldl_update_char {α : Type} (key : α → Nat) (upd : α → α)
    (p : α → Bool)
    (hkey : ∀ a, key (upd a) = key a)
    (hidem : ∀ a, upd (upd a) = upd a)
    (evs db : List α) :
    evs.foldl (fun acc e =>
        if p e then acc.map (fun r => if key r == key e then upd r else r)
        else acc) db
      = db.map (fun r =>
          if evs.any (fun e => p e && key r == key e) then upd r else r) := by
  induction evs generalizing db with
  | nil => simp
  | cons e evs ih =>
    simp only [List.foldl_cons]
    cases hp : p e with
    | false =>
      rw [if_neg (by simp [hp]), ih]
      apply List.map_congr_left
      intro r hr
      simp [hp]
    | true =>
      rw [if_pos rfl, ih, List.map_map]
      apply List.map_congr_left
      intro r hr
      simp only [Function.comp_apply, List.any_cons, hp]
      cases hk : (key r == key e) with
      | true => simp [hk, hkey, hidem]
      | false => simp [hk]

/-- Over a store with no duplicate keys, "some filtered row with my key
triggered" collapses to "I pass the filter and I trigger". Shared by the
processor and publisher cycle characterizations. -/
theorem any_filter_eq {α : Type} (key : α → Nat) (q pcond : α → Bool)
    (db : List α) (hnd : (db.map key).Nodup) (r : α) (hr : r ∈ db) :
    ((db.filter q).any (fun e => pcond e && key r == key e))
      = (q r && pcond r) := by
  have h1 : ((db.filter q).any (fun e => pcond e && key r == key e)) = true ↔
      (q r && pcond r) = true := by
    constructor
    · intro h
      obtain ⟨e, he, hpe⟩ := List.any_eq_true.mp h
      rw [Bool.and_eq_true] at hpe
      obtain ⟨hp1, hp2⟩ := hpe
      obtain ⟨hedb, hqe⟩ := List.mem_filter.mp he
      have hkk : key r = key e := by simpa using hp2
      have her : e = r := List.inj_on_of_nodup_map hnd hedb hr hkk.symm
      subst her
      rw [Bool.and_eq_true]
      exact ⟨hqe, hp1⟩
    · intro h
      rw [Bool.and_eq_true] at h
      obtain ⟨hq, hp⟩ := h
      refine List.any_eq_true.mpr ⟨r, List.mem_filter.mpr ⟨hr, hq⟩, ?_⟩
      rw [Bool.and_eq_true]
      exact ⟨hp, by simp⟩
  by_cases hA : ((db.filter q).any (fun e => pcond e && key r == key e)) = true
  · rw [hA, h1.mp hA]
  · have hB : ¬ (q r && pcond r) = true := fun hb => hA (h1.mpr hb)
    rw [Bool.not_eq_true] at hA hB
    rw [hA, hB]

/-- The processing loop body as a conditional UPDATE: the row map fires
exactly when the outcome is `success`. -/
theorem process_events_step (outcome : Nat → EvOutcome)
    (acc : List ProcEvent) (e : ProcEvent) :
    (match outcome e.id with
      | EvOutcome.success => mark_processed acc e.id
      | _ => acc)
      = (if (outcome e.id == EvOutcome.success)
         then acc.map (fun r =>
           if r.id == e.id then { r with processed_for_suggestion := true }
           else r)
         else acc) := by
  cases h : outcome e.id <;> simp [h, mark_processed]

/-- One cycle of `process_events` as a map over the store. -/
theorem process_events_char (outcome : Nat → EvOutcome)
    (db : List ProcEvent)
    (hnd : (db.map (fun e => e.id)).Nodup) :
    process_events outcome db = db.map (fun r =>
      if (r.processed_for_suggestion == false
          && outcome r.id == EvOutcome.success)
      then { r with processed_for_suggestion := true } else r) := by
  unfold process_events
  have hfun : (fun (acc : List ProcEvent) e =>
      match outcome e.id with
      | EvOutcome.success => mark_processed acc e.id
      | _ => acc)
      = (fun acc e =>
        if ((fun e2 => outcome e2.id == EvOutcome.success) e)
        then acc.map (fun r =>
          if (fun e2 : ProcEvent => e2.id) r == (fun e2 : ProcEvent => e2.id) e
          then (fun r2 => { r2 with processed_for_suggestion := true }) r
          else r)
        else acc) :=
    funext fun acc => funext fun e => process_events_step outcome acc e
  rw [hfun,
    foldl_update_char (fun e : ProcEvent => e.id)
      (fun r => { r with processed_for_suggestion := true })
      (fun e => outcome e.id == EvOutcome.success)
      (fun a => rfl) (fun a => rfl)]
  apply List.map_congr_left
  intro r hr
  rw [any_filter_eq (fun e : ProcEvent => e.id)
    (fun e => e.processed_for_suggestion == false)
    (fun e => outcome e.id == EvOutcome.success) db hnd r hr]

/-- C3: one processor cycle over a store with distinct event ids acts on
every row independently: a row's flag afterward is its old flag OR-ed
with the success of its own suggestion call, so a failing event k leaves
every other event's processing intact, k itself stays unprocessed, and a
flag is set only after a success outcome. -/
theorem process_events_isolation (outcome : Nat → EvOutcome)
    (db : List ProcEvent)
    (hnd : (db.map (fun e => e.id)).Nodup) :
    List.Forall₂ (fun e e2 =>
        e2.id = e.id ∧
        e2.processed_for_suggestion =
          (e.processed_for_suggestion
            || (outcome e.id == EvOutcome.success)))
      db (process_events outcome db) := by
  rw [process_events_char outcome db hnd, List.forall₂_map_right_iff,
    List.forall₂_same]
  intro e he
  constructor
  · cases hc : (e.processed_for_suggestion == false
      && outcome e.id == EvOutcome.success) <;> simp [hc]
  · cases hp : e.processed_for_suggestion <;>
      cases ho : (outcome e.id == EvOutcome.success) <;> simp [hp, ho]

/-- C3 witness: three events with distinct ids, event 1 raising and the
others succeeding: events 2 and 3 are unaffected by 1's failure, and 1
stays unprocessed. -/
theorem process_events_isolation_witness :
    ((dbEvents.map (fun e => e.id)).Nodup) ∧
    List.Forall₂ (fun e e2 =>
        e2.id = e.id ∧
        e2.processed_for_suggestion =
          (e.processed_for_suggestion
            || (outcomeFail1 e.id == EvOutcome.success)))
      dbEvents (process_events outcomeFail1 dbEvents) :=
  ⟨by decide, process_events_isolation outcomeFail1 dbEvents (by decide)⟩

/-- The store component of `create_deal` as a conditional UPDATE. -/
theorem create_deal_snd (http : Nat → Option Nat) (acc : List Suggestion)
    (s : Suggestion) :
    (create_deal http acc s).2 =
      (if httpSuccess (http s.id) then update_suggestion_status acc s.id
       else acc) := by
  unfold create_deal
  split
  · rename_i h
    rw [h]
    rfl
  · rename_i code h
    rw [h]
    rw [show httpSuccess (some code) = [200, 201].contains code from rfl]
    cases hc : [200, 201].contains code with
    | true => rw [if_pos rfl, if_pos rfl]
    | false => rw [if_neg (by simp), if_neg (by simp)]

/-- C4 counterexample to the claim as stated: 204 is an HTTP 2xx success
response, yet `create_deal` checks `status_code in [200, 201]`, so a 204
reply leaves the accepted suggestion unposted. -/
theorem publisher_204_cex :
    ((200 ≤ 204 ∧ 204 < 300) ∧
      suggAccepted.vendor_feedback = "accepted" ∧
      suggAccepted.status ≠ "posted") ∧
    process_suggestions (fun _ => some 204) [suggAccepted] =
      [suggAccepted] := by
  exact ⟨by decide, by decide⟩

/-- C4 (amended): a suggestion is a publish candidate iff
`vendor_feedback = accepted` and `status ≠ posted` (so a pending one is
never published); over a store with distinct ids, one cycle sets a row's
status to `posted` exactly when it is a candidate and its own HTTP
response has status 200 or 201; any other response or a network failure
leaves it unchanged, and a posted row is no longer a candidate. -/
theorem publisher_cycle (http : Nat → Option Nat) (db : List Suggestion)
    (hnd : (db.map (fun s => s.id)).Nodup) :
    (∀ s, s ∈ get_accepted_suggestions db ↔
      (s ∈ db ∧ s.vendor_feedback = "accepted" ∧ s.status ≠ "posted")) ∧
    List.Forall₂ (fun s s2 =>
        s2.id = s.id ∧ s2.vendor_feedback = s.vendor_feedback ∧
        s2.status =
          (if ((s.vendor_feedback == "accepted" && s.status != "posted")
               && httpSuccess (http s.id))
           then "posted" else s.status))
      db (process_suggestions http db) := by
  constructor
  · intro s
    simp [get_accepted_suggestions, List.mem_filter, and_assoc]
  · have hchar : process_suggestions http db = db.map (fun r =>
        if ((r.vendor_feedback == "accepted" && r.status != "posted")
            && httpSuccess (http r.id))
        then { r with status := "posted" } else r) := by
      unfold process_suggestions get_accepted_suggestions
      have hfun : (fun (acc : List Suggestion) s => (create_deal http acc s).2)
          = (fun acc s =>
            if ((fun s2 => httpSuccess (http s2.id)) s)
            then acc.map (fun r =>
              if (fun s2 : Suggestion => s2.id) r
                  == (fun s2 : Suggestion => s2.id) s
              then (fun r2 => { r2 with status := "posted" }) r
              else r)
            else acc) := by
        funext acc s
        rw [create_deal_snd]
        rfl
      rw [hfun,
        foldl_update_char (fun s : Suggestion => s.id)
          (fun r => { r with status := "posted" })
          (fun s => httpSuccess (http s.id))
          (fun a => rfl) (fun a => rfl)]
      apply List.map_congr_left
      intro r hr
      rw [any_filter_eq (fun s : Suggestion => s.id)
        (fun s => s.vendor_feedback == "accepted" && s.status != "posted")
        (fun s => httpSuccess (http s.id)) db hnd r hr]
    rw [hchar, List.forall₂_map_right_iff, List.forall₂_same]
    intro s hs
    refine ⟨?_, ?_, ?_⟩
    · cases hc : ((s.vendor_feedback == "accepted" && s.status != "posted")
        && httpSuccess (http s.id)) <;> simp [hc]
    · cases hc : ((s.vendor_feedback == "accepted" && s.status != "posted")
        && httpSuccess (http s.id)) <;> simp [hc]
    · cases hc : ((s.vendor_feedback == "accepted" && s.status != "posted")
        && httpSuccess (http s.id)) <;> simp [hc]

/-- C4 witness: a store with one accepted and one pending suggestion and
an HTTP endpoint answering 200: the accepted one is a candidate and gets
posted, the pending one is untouched. -/
theorem publisher_cycle_witness :
    ((dbSuggestions.map (fun s => s.id)).Nodup) ∧
    ((∀ s, s ∈ get_accepted_suggestions dbSuggestions ↔
      (s ∈ dbSuggestions ∧ s.vendor_feedback = "accepted" ∧
        s.status ≠ "posted")) ∧
    List.Forall₂ (fun s s2 =>
        s2.id = s.id ∧ s2.vendor_feedback = s.vendor_feedback ∧
        s2.status =
          (if ((s.vendor_feedback == "accepted" && s.status != "posted")
               && httpSuccess ((fun _ => some 200) s.id))
           then "posted" else s.status))
      dbSuggestions (process_suggestions (fun _ => some 200) dbSuggestions)) :=
  ⟨by decide, publisher_cycle (fun _ => some 200) dbSuggestions (by decide)⟩

/-- C8: the Haversine distance of `calculate_distance` is 0 from a point
to itself, and symmetric in its two points. -/
theorem calculate_distance_self_symm :
    (∀ lat lon : ℝ, calculate_distance lat lon lat lon = 0) ∧
    (∀ lat1 lon1 lat2 lon2 : ℝ,
      calculate_distance lat1 lon1 lat2 lon2 =
        calculate_distance lat2 lon2 lat1 lon1) := by
  have hs : ∀ x y : ℝ,
      Real.sin ((x - y) / 2) ^ 2 = Real.sin ((y - x) / 2) ^ 2 := by
    intro x y
    rw [show (x - y) / 2 = -((y - x) / 2) by ring, Real.sin_neg, neg_sq]
  constructor
  · intro lat lon
    unfold calculate_distance hav_a
    simp
  · intro lat1 lon1 lat2 lon2
    unfold calculate_distance
    have ha : hav_a lat1 lon1 lat2 lon2 = hav_a lat2 lon2 lat1 lon1 := by
      unfold hav_a
      rw [hs (radians lat2) (radians lat1), hs (radians lon2) (radians lon1)]
      ring
    rw [ha]

/-- The step `closest_step_ok` ignores a candidate whose coordinates do not parse. -/
theorem closest_step_ok_unparsed (vlat vlon : ℝ) (st : Option (Activity × ℝ))
    (a : Activity) (hp : parsedCoords a = none) :
    closest_step_ok vlat vlon st a = st := by
  unfold closest_step_ok
  rw [hp]

/-- The first parsable candidate always beats the initial infinite
minimum. -/
theorem closest_step_ok_first (vlat vlon : ℝ) (a : Activity) (alat alon : ℝ)
    (hp : parsedCoords a = some (alat, alon)) :
    closest_step_ok vlat vlon none a =
      some (a, calculate_distance vlat vlon alat alon) := by
  unfold closest_step_ok
  rw [hp]

/-- A strictly closer candidate replaces the state. -/
theorem closest_step_ok_closer (vlat vlon : ℝ) (c0 : Activity) (m0 : ℝ)
    (a : Activity) (alat alon : ℝ)
    (hp : parsedCoords a = some (alat, alon))
    (hlt : calculate_distance vlat vlon alat alon < m0) :
    closest_step_ok vlat vlon (some (c0, m0)) a =
      some (a, calculate_distance vlat vlon alat alon) := by
  unfold closest_step_ok
  rw [hp]
  simp [hlt]

/-- A candidate at the current minimum distance or farther is discarded:
ties keep the first-encountered activity. -/
theorem closest_step_ok_farther (vlat vlon : ℝ) (c0 : Activity) (m0 : ℝ)
    (a : Activity) (alat alon : ℝ)
    (hp : parsedCoords a = some (alat, alon))
    (hge : ¬ calculate_distance vlat vlon alat alon < m0) :
    closest_step_ok vlat vlon (some (c0, m0)) a = some (c0, m0) := by
  unfold closest_step_ok
  rw [hp]
  simp [hge]

/-- The step `closest_step_ok` yields `none` only from `none` on an unparsable
candidate. -/
theorem closest_step_ok_none_iff (vlat vlon : ℝ) (st : Option (Activity × ℝ))
    (a : Activity) :
    closest_step_ok vlat vlon st a = none ↔
      (st = none ∧ parsedCoords a = none) := by
  cases hp : parsedCoords a with
  | none =>
    rw [closest_step_ok_unparsed vlat vlon st a hp]
    simp
  | some p =>
    obtain ⟨alat, alon⟩ := p
    cases st with
    | none =>
      rw [closest_step_ok_first vlat vlon a alat alon hp]
      simp
    | some pr =>
      obtain ⟨c0, m0⟩ := pr
      by_cases hlt : calculate_distance vlat vlon alat alon < m0
      · rw [closest_step_ok_closer vlat vlon c0 m0 a alat alon hp hlt]
        simp
      · rw [closest_step_ok_farther vlat vlon c0 m0 a alat alon hp hlt]
        simp

/-- The search returns `none` exactly when it started empty and every
candidate was unparsable. -/
theorem closest_fold_none (vlat vlon : ℝ) (acts : List Activity) :
    ∀ st, acts.foldl (closest_step_ok vlat vlon) st = none ↔
      (st = none ∧ ∀ a ∈ acts, parsedCoords a = none) := by
  induction acts with
  | nil => intro st; simp
  | cons a acts ih =>
    intro st
    rw [List.foldl_cons, ih, closest_step_ok_none_iff]
    constructor
    · rintro ⟨⟨h1, h2⟩, h3⟩
      exact ⟨h1, by
        intro a2 ha2
        rcases List.mem_cons.mp ha2 with rfl | hm
        · exact h2
        · exact h3 a2 hm⟩
    · rintro ⟨h1, h2⟩
      exact ⟨⟨h1, h2 a (List.mem_cons_self a acts)⟩,
        fun a2 hm => h2 a2 (List.mem_cons_of_mem a hm)⟩

/-- Value of `actDist` at a parsable candidate. -/
theorem actDist_parsed (vlat vlon : ℝ) (a : Activity) (alat alon : ℝ)
    (hp : parsedCoords a = some (alat, alon)) :
    actDist vlat vlon a = some (calculate_distance vlat vlon alat alon) := by
  simp [actDist, hp]

/-- Value of `actDist` at an unparsable candidate. -/
theorem actDist_unparsed (vlat vlon : ℝ) (a : Activity)
    (hp : parsedCoords a = none) :
    actDist vlat vlon a = none := by
  simp [actDist, hp]

/-- The full loop invariant of `find_closest_activity`: when the fold
ends in `some (c, m)`, `m` is `c`'s distance, and either the initial
state survived every candidate (none strictly closer), or `c` is a
candidate that strictly beats the initial state and every earlier
parsable candidate, and is no farther than every later one. -/
theorem closest_fold_some (vlat vlon : ℝ) (acts : List Activity) :
    ∀ (st : Option (Activity × ℝ)),
    (∀ c0 m0, st = some (c0, m0) → actDist vlat vlon c0 = some m0) →
    ∀ c m, acts.foldl (closest_step_ok vlat vlon) st = some (c, m) →
      actDist vlat vlon c = some m ∧
      ((st = some (c, m) ∧
          ∀ a ∈ acts, ∀ da, actDist vlat vlon a = some da → m ≤ da) ∨
       (∃ l1 l2, acts = l1 ++ c :: l2 ∧
          (∀ c0 m0, st = some (c0, m0) → m < m0) ∧
          (∀ a ∈ l1, ∀ da, actDist vlat vlon a = some da → m < da) ∧
          (∀ a ∈ l2, ∀ da, actDist vlat vlon a = some da → m ≤ da))) := by
  induction acts with
  | nil =>
    intro st hinv c m h
    simp only [List.foldl_nil] at h
    exact ⟨hinv c m h, Or.inl ⟨h, by simp⟩⟩
  | cons a acts ih =>
    intro st hinv c m h
    rw [List.foldl_cons] at h
    have hinv' : ∀ c0 m0, closest_step_ok vlat vlon st a = some (c0, m0) →
        actDist vlat vlon c0 = some m0 := by
      intro c0 m0 heq2
      cases hp : parsedCoords a with
      | none =>
        rw [closest_step_ok_unparsed vlat vlon st a hp] at heq2
        exact hinv c0 m0 heq2
      | some p =>
        obtain ⟨alat, alon⟩ := p
        cases hst : st with
        | none =>
          rw [hst, closest_step_ok_first vlat vlon a alat alon hp] at heq2
          have h2 := Option.some.inj heq2
          rw [Prod.mk.injEq] at h2
          obtain ⟨h21, h22⟩ := h2
          rw [← h21, ← h22]
          exact actDist_parsed vlat vlon a alat alon hp
        | some pr =>
          obtain ⟨c1, m1⟩ := pr
          by_cases hlt : calculate_distance vlat vlon alat alon < m1
          · rw [hst, closest_step_ok_closer vlat vlon c1 m1 a alat alon hp hlt]
              at heq2
            have h2 := Option.some.inj heq2
            rw [Prod.mk.injEq] at h2
            obtain ⟨h21, h22⟩ := h2
            rw [← h21, ← h22]
            exact actDist_parsed vlat vlon a alat alon hp
          · rw [hst, closest_step_ok_farther vlat vlon c1 m1 a alat alon hp hlt]
              at heq2
            have h2 := Option.some.inj heq2
            rw [Prod.mk.injEq] at h2
            obtain ⟨h21, h22⟩ := h2
            rw [← h21, ← h22]
            exact hinv c1 m1 hst
    obtain ⟨hdist, hcase⟩ := ih (closest_step_ok vlat vlon st a) hinv' c m h
    refine ⟨hdist, ?_⟩
    rcases hcase with ⟨hst', hall⟩ | ⟨l1, l2, heq, hbeat, hl1, hl2⟩
    · cases hp : parsedCoords a with
      | none =>
        rw [closest_step_ok_unparsed vlat vlon st a hp] at hst'
        left
        refine ⟨hst', ?_⟩
        intro a2 ha2 da hda
        rcases List.mem_cons.mp ha2 with rfl | hm
        · rw [actDist_unparsed vlat vlon a2 hp] at hda
          exact Option.noConfusion hda
        · exact hall a2 hm da hda
      | some p =>
        obtain ⟨alat, alon⟩ := p
        cases hst : st with
        | none =>
          rw [hst, closest_step_ok_first vlat vlon a alat alon hp] at hst'
          have h2 := Option.some.inj hst'
          rw [Prod.mk.injEq] at h2
          obtain ⟨h21, h22⟩ := h2
          right
          refine ⟨[], acts, by simp [h21], ?_, by simp, hall⟩
          intro c0 m0 hst0
          exact Option.noConfusion hst0
        | some pr =>
          obtain ⟨c1, m1⟩ := pr
          by_cases hlt : calculate_distance vlat vlon alat alon < m1
          · rw [hst, closest_step_ok_closer vlat vlon c1 m1 a alat alon hp hlt]
              at hst'
            have h2 := Option.some.inj hst'
            rw [Prod.mk.injEq] at h2
            obtain ⟨h21, h22⟩ := h2
            right
            refine ⟨[], acts, by simp [h21], ?_, by simp, hall⟩
            intro c0 m0 hst0
            have h3 := Option.some.inj hst0
            rw [Prod.mk.injEq] at h3
            obtain ⟨h31, h32⟩ := h3
            rw [← h22, ← h32]
            exact hlt
          · rw [hst, closest_step_ok_farther vlat vlon c1 m1 a alat alon hp hlt]
              at hst'
            have h2 := Option.some.inj hst'
            rw [Prod.mk.injEq] at h2
            obtain ⟨h21, h22⟩ := h2
            left
            refine ⟨by rw [h21, h22], ?_⟩
            intro a2 ha2 da hda
            rcases List.mem_cons.mp ha2 with rfl | hm
            · rw [actDist_parsed vlat vlon a2 alat alon hp] at hda
              have hd2 := Option.some.inj hda
              rw [← hd2, ← h22]
              exact le_of_not_lt hlt
            · exact hall a2 hm da hda
    · right
      refine ⟨a :: l1, l2, by rw [heq]; rfl, ?_, ?_, hl2⟩
      · intro c0 m0 hst0
        cases hp : parsedCoords a with
        | none =>
          exact hbeat c0 m0
            (by rw [closest_step_ok_unparsed vlat vlon st a hp, hst0])
        | some p =>
          obtain ⟨alat, alon⟩ := p
          by_cases hlt : calculate_distance vlat vlon alat alon < m0
          · have hda := hbeat a (calculate_distance vlat vlon alat alon)
              (by rw [hst0,
                closest_step_ok_closer vlat vlon c0 m0 a alat alon hp hlt])
            exact lt_trans hda hlt
          · exact hbeat c0 m0
              (by rw [hst0,
                closest_step_ok_farther vlat vlon c0 m0 a alat alon hp hlt])
      · intro a2 ha2 da hda
        rcases List.mem_cons.mp ha2 with rfl | hm
        · cases hp : parsedCoords a2 with
          | none =>
            rw [actDist_unparsed vlat vlon a2 hp] at hda
            exact Option.noConfusion hda
          | some p =>
            obtain ⟨alat, alon⟩ := p
            rw [actDist_parsed vlat vlon a2 alat alon hp] at hda
            have hd2 := Option.some.inj hda
            rw [← hd2]
            cases hst : st with
            | none =>
              exact hbeat a2 (calculate_distance vlat vlon alat alon)
                (by rw [hst, closest_step_ok_first vlat vlon a2 alat alon hp])
            | some pr =>
              obtain ⟨c1, m1⟩ := pr
              by_cases hlt : calculate_distance vlat vlon alat alon < m1
              · exact hbeat a2 (calculate_distance vlat vlon alat alon)
                  (by rw [hst,
                    closest_step_ok_closer vlat vlon c1 m1 a2 alat alon hp hlt])
              · have h1 := hbeat c1 m1
                  (by rw [hst,
                    closest_step_ok_farther vlat vlon c1 m1 a2 alat alon hp hlt])
                exact lt_of_lt_of_le h1 (le_of_not_lt hlt)
        · exact hl1 a2 hm da hda

/-- Value of `Except.map` on an error. -/
theorem except_map_error {ε α β : Type} (f : α → β) (e : ε) :
    (Except.error e : Except ε α).map f = .error e := rfl

/-- Value of `Except.map` on a success. -/
theorem except_map_ok {ε α β : Type} (f : α → β) (x : α) :
    (Except.ok x : Except ε α).map f = .ok (f x) := rfl

/-- Value of `parsedCoords` at a skipped candidate. -/
theorem parsedCoords_of_ok_none (a : Activity)
    (hp : parseCoords a = .ok none) : parsedCoords a = none := by
  unfold parsedCoords
  rw [hp]

/-- A candidate that does not abort and has no parsed pair was skipped
by the caught `ValueError`/`KeyError` branch. -/
theorem parseCoords_ok_none_of (a : Activity)
    (hna : parseCoords a ≠ .error ()) (h : parsedCoords a = none) :
    parseCoords a = .ok none := by
  cases hp : parseCoords a with
  | error e =>
    cases e
    exact absurd hp hna
  | ok o =>
    cases o with
    | none => rfl
    | some p =>
      have h2 : parsedCoords a = some p := by
        unfold parsedCoords
        rw [hp]
      rw [h2] at h
      exact Option.noConfusion h

/-- A loop that never hits an uncaught `TypeError` computes the pure
fold of the state updates. -/
theorem closest_loop_ok_of (vlat vlon : ℝ) (acts : List Activity) :
    ∀ st, (∀ a ∈ acts, parseCoords a ≠ .error ()) →
      closest_loop vlat vlon acts st =
        .ok (acts.foldl (closest_step_ok vlat vlon) st) := by
  induction acts with
  | nil =>
    intro st _
    rfl
  | cons a rest ih =>
    intro st hna
    cases hp : parseCoords a with
    | error e =>
      cases e
      exact absurd hp (hna a (List.mem_cons_self a rest))
    | ok o =>
      have hstep : closest_step vlat vlon st a =
          .ok (closest_step_ok vlat vlon st a) := by
        unfold closest_step
        rw [hp]
      have hred : closest_loop vlat vlon (a :: rest) st =
          closest_loop vlat vlon rest (closest_step_ok vlat vlon st a) := by
        simp only [closest_loop]
        rw [hstep]
      rw [hred, List.foldl_cons]
      exact ih (closest_step_ok vlat vlon st a)
        (fun a2 h2 => hna a2 (List.mem_cons_of_mem a h2))

/-- The loop aborts exactly when some candidate's coordinate parse
raises an uncaught `TypeError`, wherever it sits in the list. -/
theorem closest_loop_error_iff (vlat vlon : ℝ) (acts : List Activity) :
    ∀ st, closest_loop vlat vlon acts st = .error () ↔
      ∃ a ∈ acts, parseCoords a = .error () := by
  induction acts with
  | nil =>
    intro st
    simp [closest_loop]
  | cons a rest ih =>
    intro st
    cases hp : parseCoords a with
    | error e =>
      cases e
      have hstep : closest_step vlat vlon st a = .error () := by
        unfold closest_step
        rw [hp]
      constructor
      · intro _
        exact ⟨a, List.mem_cons_self a rest, hp⟩
      · intro _
        show closest_loop vlat vlon (a :: rest) st = .error ()
        simp only [closest_loop]
        rw [hstep]
    | ok o =>
      have hstep : closest_step vlat vlon st a =
          .ok (closest_step_ok vlat vlon st a) := by
        unfold closest_step
        rw [hp]
      have hred : closest_loop vlat vlon (a :: rest) st =
          closest_loop vlat vlon rest (closest_step_ok vlat vlon st a) := by
        simp only [closest_loop]
        rw [hstep]
      rw [hred, ih]
      constructor
      · rintro ⟨a2, h2, hp2⟩
        exact ⟨a2, List.mem_cons_of_mem a h2, hp2⟩
      · rintro ⟨a2, h2, hp2⟩
        rcases List.mem_cons.mp h2 with rfl | h3
        · rw [hp] at hp2
          exact Except.noConfusion hp2
        · exact ⟨a2, h3, hp2⟩

/-- C6 counterexample to the claim as stated: a candidate whose latitude
is a JSON null makes `float(...)` raise `TypeError`, which the loop's
`except (ValueError, KeyError)` clause does not catch, so the search
aborts with the exception instead of skipping the malformed candidate
and returning none. -/
theorem find_closest_typeerror_cex :
    parseCoords actNull = .error () ∧
    find_closest_activity 0 0 [actNull] = .error () ∧
    find_closest_activity 0 0 [actNull] ≠ .ok none := by
  refine ⟨rfl, rfl, ?_⟩
  intro h
  rw [show find_closest_activity 0 0 [actNull] = .error () from rfl] at h
  exact Except.noConfusion h

/-- C6 (amended): `find_closest_activity` aborts with the uncaught
exception exactly when some candidate's coordinate value makes
`float(...)` raise `TypeError` (e.g. a null); only `ValueError` and
`KeyError` (non-numeric strings, missing keys) are caught and skipped.
When no candidate raises `TypeError`, the search returns `none` exactly
when the list is empty or every candidate is skipped, and otherwise a
candidate of minimum Haversine distance to the vendor, every
earlier-encountered parsable candidate being strictly farther (ties go
to the first encountered). -/
theorem find_closest_activity_spec (vlat vlon : ℝ) (acts : List Activity) :
    (find_closest_activity vlat vlon acts = .error () ↔
      ∃ a ∈ acts, parseCoords a = .error ()) ∧
    ((∀ a ∈ acts, parseCoords a ≠ .error ()) →
      (find_closest_activity vlat vlon acts = .ok none ↔
        ∀ a ∈ acts, parseCoords a = .ok none) ∧
      (∀ c, find_closest_activity vlat vlon acts = .ok (some c) →
        ∃ l1 l2 d, acts = l1 ++ c :: l2 ∧
          actDist vlat vlon c = some d ∧
          (∀ a ∈ l1, ∀ da, actDist vlat vlon a = some da → d < da) ∧
          (∀ a ∈ acts, ∀ da, actDist vlat vlon a = some da → d ≤ da))) := by
  constructor
  · rw [← closest_loop_error_iff vlat vlon acts none]
    unfold find_closest_activity
    cases hl : closest_loop vlat vlon acts none with
    | error e =>
      cases e
      rw [except_map_error]
      exact ⟨fun _ => rfl, fun _ => rfl⟩
    | ok st =>
      rw [except_map_ok]
      constructor
      · intro h
        exact Except.noConfusion h
      · intro h
        exact Except.noConfusion h
  · intro hna
    have hloop := closest_loop_ok_of vlat vlon acts none hna
    have hfc : find_closest_activity vlat vlon acts =
        .ok ((acts.foldl (closest_step_ok vlat vlon) none).map Prod.fst) := by
      unfold find_closest_activity
      rw [hloop, except_map_ok]
    constructor
    · rw [hfc]
      constructor
      · intro h
        rw [Except.ok.injEq] at h
        have h3 : acts.foldl (closest_step_ok vlat vlon) none = none :=
          Option.map_eq_none'.mp h
        have h4 := (closest_fold_none vlat vlon acts none).mp h3
        exact fun a ha => parseCoords_ok_none_of a (hna a ha) (h4.2 a ha)
      · intro h
        have h3 : acts.foldl (closest_step_ok vlat vlon) none = none :=
          (closest_fold_none vlat vlon acts none).mpr
            ⟨rfl, fun a ha => parsedCoords_of_ok_none a (h a ha)⟩
        rw [h3]
        rfl
    · intro c hc
      rw [hfc, Except.ok.injEq] at hc
      cases hf : acts.foldl (closest_step_ok vlat vlon) none with
      | none =>
        rw [hf] at hc
        exact Option.noConfusion hc
      | some pr =>
        obtain ⟨c2, m⟩ := pr
        rw [hf] at hc
        have hc2 : c2 = c := by simpa using hc
        subst hc2
        obtain ⟨hdist, hcase⟩ :=
          closest_fold_some vlat vlon acts none
            (by intro c0 m0 h0; exact Option.noConfusion h0) c2 m hf
        rcases hcase with ⟨h0, _⟩ | ⟨l1, l2, heq, hbeat, hl1, hl2⟩
        · exact Option.noConfusion h0
        · refine ⟨l1, l2, m, heq, hdist, hl1, ?_⟩
          intro a ha da hda
          rw [heq] at ha
          rcases List.mem_append.mp ha with h1 | h2b
          · exact le_of_lt (hl1 a h1 da hda)
          · rcases List.mem_cons.mp h2b with rfl | h3
            · rw [hdist] at hda
              exact le_of_eq (Option.some.inj hda)
            · exact hl2 a h3 da hda

end DealsAgent
